import Mathlib

/-!
Verification development for the financial-tracker ledger
(`src/financial_tracker.py`).

Modelling conventions:
* Python numeric values (`float`) are embedded as `FinTrack.PyNum`: a
  rational carrying the exact value for finite numbers, plus explicit
  `nan`, `inf`, `ninf` constructors.  Comparisons follow IEEE semantics
  (every comparison with `nan` is false).  Addition rounds the exact sum
  to the IEEE-754 binary64 grid (round-to-nearest, ties-to-even,
  overflow to infinity), as CPython float addition does; values arising
  in the program are binary64, so they behave exactly as in CPython.
  Exact (unrounded) addition is kept alongside as the clearly named
  `PyNum.addExact` spec-side idealization.
* Strings are Lean `String`s; Python string comparison is code-point
  lexicographic, which coincides with Lean's `String` order.
* The JSON document in the data file is embedded as the inductive
  `FinTrack.JsonVal`; the file itself is `FinTrack.RawContent`, which
  distinguishes an absent file, an empty file, content that raises a
  caught read/parse error, content whose UTF-8 decoding raises the
  uncaught `UnicodeDecodeError`, and content that parses to a JSON
  value.
* Methods that mutate and persist return a pair of the Python result
  (`Except Err Bool`, where a raised `ValueError` is an `Err`) and the
  tracker after the call, so that "state unchanged on failure" is a
  provable statement.
-/

set_option maxRecDepth 8192

namespace FinTrack

/-- Embedding of a Python `float` value: an exact rational for finite
values, plus the non-finite values `nan`, `inf` (`float("inf")`) and
`ninf` (`float("-inf")`). -/
inductive PyNum where
  | finite (q : ℚ)
  | nan
  | inf
  | ninf
deriving DecidableEq

/-- IEEE-style strict `<` on Python floats: any comparison with `nan`
is false; `-inf` is below everything else; `inf` is above. -/
def PyNum.lt : PyNum → PyNum → Bool
  | .nan, _ => false
  | _, .nan => false
  | .ninf, .ninf => false
  | .ninf, _ => true
  | _, .ninf => false
  | .inf, _ => false
  | _, .inf => true
  | .finite a, .finite b => decide (a < b)

/-- IEEE-style `≤` on Python floats: any comparison with `nan` is false. -/
def PyNum.le : PyNum → PyNum → Bool
  | .nan, _ => false
  | _, .nan => false
  | .ninf, _ => true
  | _, .ninf => false
  | _, .inf => true
  | .inf, _ => false
  | .finite a, .finite b => decide (a ≤ b)

/-- Binary length of a natural number (`0` for `0`), via fuel-bounded
structural recursion; the fuel `n` itself always suffices since the
recursion halves its argument. -/
def bitLenAux : Nat → Nat → Nat
  | 0, _ => 0
  | fuel + 1, n => if n ≤ 1 then n else bitLenAux fuel (n / 2) + 1

/-- Number of binary digits of `n`. -/
def bitLen (n : Nat) : Nat := bitLenAux n n

/-- `2 ^ e` as a rational, for an integer exponent. -/
def qpow2 (e : ℤ) : ℚ :=
  if 0 ≤ e then ((2 ^ e.toNat : ℕ) : ℚ) else (1 : ℚ) / ((2 ^ (-e).toNat : ℕ) : ℚ)

/-- Whether `2 ^ e ≤ a / b`, for positive naturals `a`, `b`, decided in
integer arithmetic. -/
def pow2Le (e : ℤ) (a b : Nat) : Bool :=
  if 0 ≤ e then decide (b * 2 ^ e.toNat ≤ a) else decide (b ≤ a * 2 ^ (-e).toNat)

/-- `⌊log₂ (a / b)⌋` for positive naturals `a`, `b`: the bit-length
difference is off by at most one, corrected by direct comparison. -/
def floorLog2 (a b : Nat) : ℤ :=
  let e0 : ℤ := (bitLen a : ℤ) - (bitLen b : ℤ)
  if pow2Le (e0 + 1) a b then e0 + 1
  else if pow2Le e0 a b then e0
  else e0 - 1

/-- Round the positive rational `a / b` (`a, b ≥ 1`) to the IEEE-754
binary64 grid with round-to-nearest, ties-to-even: yields `(n, g)` with
rounded value `n * 2 ^ g`, where the grid step `2 ^ g` is `2 ^ (e - 52)`
for a magnitude in `[2 ^ e, 2 ^ (e + 1))` and `2 ^ (-1074)` in the
subnormal range; `none` when the rounded value overflows the finite
binary64 range (`≥ 2 ^ 1024`). -/
def roundPosB64 (a b : Nat) : Option (Nat × ℤ) :=
  let e := floorLog2 a b
  let g : ℤ := max (e - 52) (-1074)
  let p := if 0 ≤ g then a else a * 2 ^ (-g).toNat
  let q := if 0 ≤ g then b * 2 ^ g.toNat else b
  let n0 := p / q
  let r2 := 2 * (p - n0 * q)
  let n := if r2 < q then n0
           else if q < r2 then n0 + 1
           else if n0 % 2 = 0 then n0 else n0 + 1
  let ovf := if 0 ≤ g then decide (2 ^ 1024 ≤ n * 2 ^ g.toNat)
             else decide (2 ^ 1024 * 2 ^ (-g).toNat ≤ n)
  if ovf then none else some (n, g)

/-- The rational value `n * 2 ^ g` of a grid point. -/
def gridVal (n : Nat) (g : ℤ) : ℚ := (n : ℚ) * qpow2 g

/-- Round an exact rational to the binary64 value CPython float
arithmetic produces: round to nearest, ties to even, overflow to the
corresponding infinity.  The sign of a zero result is not tracked
(`-0.0` is identified with `0.0`; the two are equal under Python
comparison). -/
def roundB64 (x : ℚ) : PyNum :=
  if x = 0 then .finite 0
  else if 0 < x then
    match roundPosB64 x.num.toNat x.den with
    | some (n, g) => .finite (gridVal n g)
    | none => .inf
  else
    match roundPosB64 (-x.num).toNat x.den with
    | some (n, g) => .finite (-gridVal n g)
    | none => .ninf

/-- Python float addition: `nan` absorbs, `inf + (-inf) = nan`, and the
sum of two finite values is the exact rational sum rounded to binary64
(program values are binary64, so on them this is exactly CPython's
addition). -/
def PyNum.add : PyNum → PyNum → PyNum
  | .nan, _ => .nan
  | _, .nan => .nan
  | .inf, .ninf => .nan
  | .ninf, .inf => .nan
  | .inf, _ => .inf
  | _, .inf => .inf
  | .ninf, _ => .ninf
  | _, .ninf => .ninf
  | .finite a, .finite b => roundB64 (a + b)

/-- Spec-side idealization: addition of amounts as exact numbers, with
the same `nan` / infinity behaviour but no binary64 rounding. -/
def PyNum.addExact : PyNum → PyNum → PyNum
  | .nan, _ => .nan
  | _, .nan => .nan
  | .inf, .ninf => .nan
  | .ninf, .inf => .nan
  | .inf, _ => .inf
  | _, .inf => .inf
  | .ninf, _ => .ninf
  | _, .ninf => .ninf
  | .finite a, .finite b => .finite (a + b)

/-- `v` is a finite number (not `nan` and not an infinity). -/
def PyNum.isFiniteNum : PyNum → Bool
  | .finite _ => true
  | _ => false

theorem PyNum.zero_addExact (a : PyNum) : (PyNum.finite 0).addExact a = a := by
  cases a <;> simp [PyNum.addExact]

theorem PyNum.addExact_zero (a : PyNum) : a.addExact (PyNum.finite 0) = a := by
  cases a <;> simp [PyNum.addExact]

theorem PyNum.addExact_comm (a b : PyNum) : a.addExact b = b.addExact a := by
  cases a <;> cases b <;> simp [PyNum.addExact] <;> ring

theorem PyNum.addExact_assoc (a b c : PyNum) :
    (a.addExact b).addExact c = a.addExact (b.addExact c) := by
  cases a <;> cases b <;> cases c <;> simp [PyNum.addExact] <;> ring

/-- Numeric value of an ASCII digit character. -/
def digitVal (c : Char) : Nat := c.toNat - 48

/-- The whitespace characters stripped by Python's `str.strip()`
(ASCII subset: space, tab, newline, carriage return, vertical tab,
form feed). -/
def pyIsSpace (c : Char) : Bool :=
  c = ' ' || c = '\t' || c = '\n' || c = '\r' ||
  c = Char.ofNat 11 || c = Char.ofNat 12

/-- Model of Python `str.strip()`: remove leading and trailing
whitespace. -/
def pyStrip (s : String) : String :=
  String.mk (((s.data.dropWhile pyIsSpace).reverse.dropWhile pyIsSpace).reverse)

/-- Python string comparison `a < b`: code-point lexicographic order. -/
def lexLt : List Char → List Char → Bool
  | [], [] => false
  | [], _ :: _ => true
  | _ :: _, [] => false
  | a :: as, b :: bs =>
    if a.toNat < b.toNat then true
    else if b.toNat < a.toNat then false
    else lexLt as bs

/-- Python `a < b` on strings. -/
def strLt (a b : String) : Bool := lexLt a.data b.data

/-- Python `a <= b` on strings; lexicographic order is total, so this is
the negation of `b < a`. -/
def strLe (a b : String) : Bool := !(strLt b a)

/-- A parsed calendar date. -/
structure Ymd where
  year : Nat
  month : Nat
  day : Nat
deriving DecidableEq

/-- Gregorian leap-year test, as implemented by Python's `datetime`. -/
def isLeapYear (y : Nat) : Bool :=
  y % 4 == 0 && (y % 100 != 0 || y % 400 == 0)

/-- Number of days in a month, as enforced by `datetime.datetime`. -/
def daysInMonth (y m : Nat) : Nat :=
  if m = 2 then (if isLeapYear y then 29 else 28)
  else if m = 4 ∨ m = 6 ∨ m = 9 ∨ m = 11 then 30
  else 31

/-- One numeric field of `strptime`'s `%m` / `%d` directives.  CPython's
`_strptime` compiles `%m` to the regex `1[0-2]|0[1-9]|[1-9]` and `%d` to
`3[01]|[12]\d|0[1-9]|[1-9]`: one or two digits, value between 1 and
`hi`, with no backtracking needed because the field is followed by a
non-digit (`-` or end of string). -/
def takeNum2or1 (hi : Nat) : List Char → Option (Nat × List Char)
  | c1 :: c2 :: rest =>
    if c1.isDigit then
      if c2.isDigit then
        let v := 10 * digitVal c1 + digitVal c2
        if 1 ≤ v ∧ v ≤ hi then some (v, rest) else none
      else
        if 1 ≤ digitVal c1 then some (digitVal c1, c2 :: rest) else none
    else none
  | [c1] =>
    if c1.isDigit ∧ 1 ≤ digitVal c1 then some (digitVal c1, []) else none
  | [] => none

/-- Model of `datetime.datetime.strptime(s, "%Y-%m-%d")` (as called by
`add_expense`, `get_period_stats` and `validate_date`): exactly four
digits of year (CPython compiles `%Y` to `\d\d\d\d`), a dash, a one- or
two-digit month 1..12, a dash, a one- or two-digit day, end of string;
the whole string must be consumed, the year must be at least 1
(`datetime.MINYEAR`), and the day must exist in that month and year
(leap years included).  Returns the parsed date, or `none` when the
call would raise `ValueError`. -/
def strpYmd (s : String) : Option Ymd :=
  match s.data with
  | c1 :: c2 :: c3 :: c4 :: '-' :: rest =>
    if c1.isDigit && c2.isDigit && c3.isDigit && c4.isDigit then
      let y := 1000 * digitVal c1 + 100 * digitVal c2 + 10 * digitVal c3 + digitVal c4
      if 1 ≤ y then
        match takeNum2or1 12 rest with
        | some (m, '-' :: rest2) =>
          match takeNum2or1 31 rest2 with
          | some (d, []) => if d ≤ daysInMonth y m then some ⟨y, m, d⟩ else none
          | _ => none
        | _ => none
      else none
    else none
  | _ => none

/-- Read a maximal run of ASCII digits: returns the accumulated value,
the number of digits consumed, and the remaining characters. -/
def readDigits : List Char → Nat → Nat → Nat × Nat × List Char
  | [], acc, k => (acc, k, [])
  | c :: rest, acc, k =>
    if c.isDigit then readDigits rest (10 * acc + digitVal c) (k + 1)
    else (acc, k, c :: rest)

/-- Exponent part of a float literal: optional sign and a nonempty digit
run, which must consume the rest of the input.  The mantissa is scaled
by the corresponding (exact) power of ten. -/
def parseExp (mant : ℚ) (cs : List Char) : Option ℚ :=
  let (eneg, body) :=
    match cs with
    | '+' :: r => (false, r)
    | '-' :: r => (true, r)
    | r => (false, r)
  let (ev, ek, r) := readDigits body 0 0
  if ek = 0 then none
  else
    match r with
    | [] => some (if eneg then mant / (10 ^ ev : ℚ) else mant * (10 ^ ev : ℚ))
    | _ => none

/-- Decimal part of a float literal after the optional sign: digits with
an optional point (at least one digit overall) and an optional exponent.
The value is exact (rational), idealizing binary-float rounding. -/
def parseDecimal (cs : List Char) : Option ℚ :=
  let (ip, ik, r1) := readDigits cs 0 0
  let (mant, mk, r2) :=
    match r1 with
    | '.' :: r =>
      let (fp, fk, r3) := readDigits r 0 0
      (((ip : ℚ) + (fp : ℚ) / (10 ^ fk : ℚ)), ik + fk, r3)
    | _ => ((ip : ℚ), ik, r1)
  if mk = 0 then none
  else
    match r2 with
    | [] => some mant
    | 'e' :: r => parseExp mant r
    | 'E' :: r => parseExp mant r
    | _ => none

/-- Model of CPython's `float(s)` conversion from a string: surrounding
whitespace is ignored, then an optional sign followed by either a
decimal literal (digits, optional point, optional exponent), or the
case-insensitive words `inf` / `infinity` / `nan`.  Returns `none` when
the conversion would raise `ValueError`.  (Numeric-separator
underscores are not modelled.) -/
def pyFloatOfString (s : String) : Option PyNum :=
  let t1 := s.data.dropWhile pyIsSpace
  let cs := (t1.reverse.dropWhile pyIsSpace).reverse
  match cs with
  | [] => none
  | _ =>
    let (neg, body) :=
      match cs with
      | '+' :: rest => (false, rest)
      | '-' :: rest => (true, rest)
      | rest => (false, rest)
    let low := body.map Char.toLower
    if low = "inf".data || low = "infinity".data then
      some (if neg then .ninf else .inf)
    else if low = "nan".data then some .nan
    else
      match parseDecimal body with
      | some q => some (.finite (if neg then -q else q))
      | none => none

/-- Embedding of the module-level helper `validate_amount`: convert the
string with `float`; on `ValueError` return `(False, 0)`; otherwise
return `(True, amount)` when `amount >= 0` and `(False, 0)` when not
(so `nan` yields `(False, 0)`). -/
def validate_amount (s : String) : Bool × PyNum :=
  match pyFloatOfString s with
  | some v => if PyNum.le (.finite 0) v then (true, v) else (false, .finite 0)
  | none => (false, .finite 0)

/-- Embedding of the module-level helper `validate_date`: whether
`strptime(s, "%Y-%m-%d")` succeeds. -/
def validate_date (s : String) : Bool :=
  (strpYmd s).isSome

/-- A JSON value, as produced by Python's `json.load` (numbers carry
the embedded float value, so `Infinity` / `NaN`, which Python's `json`
module reads and writes, are representable). -/
inductive JsonVal where
  | null
  | bool (b : Bool)
  | num (x : PyNum)
  | str (s : String)
  | arr (xs : List JsonVal)
  | obj (fields : List (String × JsonVal))

/-- One expense record of the in-memory ledger:
`{"amount": ..., "category": ..., "date": ...}`. -/
structure Expense where
  amount : PyNum
  category : String
  date : String
deriving DecidableEq

/-- The well-shaped in-memory state `{"budget": ..., "expenses": [...]}`
of `FinancialTracker.data`. -/
structure LedgerState where
  budget : PyNum
  expenses : List Expense
deriving DecidableEq

/-- JSON document written for one expense record. -/
def encodeExpense (e : Expense) : JsonVal :=
  .obj [("amount", .num e.amount), ("category", .str e.category), ("date", .str e.date)]

/-- JSON document written by `_save_data` for a well-shaped state. -/
def encodeState (s : LedgerState) : JsonVal :=
  .obj [("budget", .num s.budget), ("expenses", .arr (s.expenses.map encodeExpense))]

/-- Field lookup in a JSON object. -/
def lookupField : List (String × JsonVal) → String → Option JsonVal
  | [], _ => none
  | (k, v) :: rest, key => if k = key then some v else lookupField rest key

/-- Reader for the expected shape of one expense record, following the
spec's persisted-state layout (`amount` a number, `category` and `date`
strings); `none` when the document is structurally invalid. -/
def decodeExpense : JsonVal → Option Expense
  | .obj fields =>
    match lookupField fields "amount", lookupField fields "category",
          lookupField fields "date" with
    | some (.num a), some (.str c), some (.str d) => some ⟨a, c, d⟩
    | _, _, _ => none
  | _ => none

/-- Reader for a list of expense records. -/
def decodeExpenses : List JsonVal → Option (List Expense)
  | [] => some []
  | v :: vs =>
    match decodeExpense v, decodeExpenses vs with
    | some e, some es => some (e :: es)
    | _, _ => none

/-- Reader for the expected shape
`{budget: number, expenses: list of expense records}` of the persisted
document, following the spec's words; `none` when the document does not
have that shape. -/
def decodeState : JsonVal → Option LedgerState
  | .obj fields =>
    match lookupField fields "budget", lookupField fields "expenses" with
    | some (.num b), some (.arr xs) => (decodeExpenses xs).map (fun es => ⟨b, es⟩)
    | _, _ => none
  | _ => none

/-- What the data file can hold, as distinguished by `_load_data`: the
file is absent (`os.path.exists` false); exists but is empty
(`os.path.getsize == 0`); holds content that `json.load` rejects or
that cannot be read, raising one of the caught exceptions
(`json.JSONDecodeError` / `IOError`); holds nonempty bytes that are not
valid UTF-8, so that reading inside `json.load` raises
`UnicodeDecodeError` — a `ValueError` that is outside the caught set;
or holds content that parses to the JSON value `doc`. -/
inductive RawContent where
  | absent
  | empty
  | invalid
  | undecodable
  | valid (doc : JsonVal)

/-- An exception escaping `_load_data` (and hence `__init__`): the
`UnicodeDecodeError` raised when the file bytes cannot be decoded as
UTF-8, which `except (json.JSONDecodeError, IOError)` does not
catch. -/
inductive UncaughtExn where
  | unicodeDecodeError
deriving DecidableEq

/-- The default state `{"budget": 0.0, "expenses": []}` installed by
`__init__` and by the corruption handler of `_load_data`. -/
def defaultData : JsonVal :=
  .obj [("budget", .num (.finite 0)), ("expenses", .arr [])]

/-- Embedding of `__init__` + `_load_data`: the in-memory document
after construction, or the exception that escapes it.  The default
survives when the file is absent or empty; `json.JSONDecodeError` /
`IOError` are caught and reset to the default; any successfully parsed
JSON value is assigned to `self.data` as is; content that is not
decodable as UTF-8 raises `UnicodeDecodeError` through the constructor,
so construction fails. -/
def load_data : RawContent → Except UncaughtExn JsonVal
  | .absent => .ok defaultData
  | .empty => .ok defaultData
  | .invalid => .ok defaultData
  | .undecodable => .error .unicodeDecodeError
  | .valid doc => .ok doc

/-- Embedding of `_save_data`: the file content after `json.dump` of a
document is that document (serialization is modelled at the JSON-value
level; Python's `repr`-based float writing round-trips). -/
def save_data (doc : JsonVal) : RawContent :=
  .valid doc

/-- A tracker whose in-memory data has the expected shape, together
with its data file. -/
structure Tracker where
  data : LedgerState
  file : RawContent

/-- The three failure kinds of the core operations (each surfaces as a
`ValueError` in the source). -/
inductive Err where
  | invalidBudget
  | invalidExpense
  | invalidDateRange
deriving DecidableEq

/-- Write-through step shared by the mutating operations: the new file
content is the serialized in-memory state. -/
def saveTracker (tr : Tracker) : Tracker :=
  { tr with file := save_data (encodeState tr.data) }

/-- Embedding of `FinancialTracker.set_budget`: convert to float (the
identity on a numeric argument), raise when the value compares `< 0`,
otherwise overwrite `budget`, persist, and return `True`.  The returned
pair is (Python result, tracker after the call). -/
def set_budget (v : PyNum) (tr : Tracker) : Except Err Bool × Tracker :=
  if PyNum.lt v (.finite 0) then (.error .invalidBudget, tr)
  else
    (.ok true, saveTracker { tr with data := { tr.data with budget := v } })

/-- Embedding of `FinancialTracker.add_expense`: raise when the amount
compares `<= 0`; raise when the category is empty or blank after
stripping; with an explicit date, raise when `strptime` rejects it;
with no date, use today's date (`today` stands for
`datetime.date.today().isoformat()`); then append the record, persist,
and return `True`. -/
def add_expense (amount : PyNum) (category : String) (date : Option String)
    (today : String) (tr : Tracker) : Except Err Bool × Tracker :=
  if PyNum.le amount (.finite 0) then (.error .invalidExpense, tr)
  else if pyStrip category = "" then (.error .invalidExpense, tr)
  else
    match date with
    | none =>
      let e : Expense := ⟨amount, pyStrip category, today⟩
      (.ok true, saveTracker { tr with data := { tr.data with expenses := tr.data.expenses ++ [e] } })
    | some d =>
      match strpYmd d with
      | none => (.error .invalidExpense, tr)
      | some _ =>
        let e : Expense := ⟨amount, pyStrip category, d⟩
        (.ok true, saveTracker { tr with data := { tr.data with expenses := tr.data.expenses ++ [e] } })

/-- Embedding of `FinancialTracker.get_total_spent`:
`sum(expense["amount"] for expense in self.data["expenses"])`, a left
fold starting from the integer `0`. -/
def get_total_spent (ls : LedgerState) : PyNum :=
  ls.expenses.foldl (fun acc e => acc.add e.amount) (.finite 0)

/-- One step of `get_category_stats`:
`categories[category] = categories.get(category, 0) + expense["amount"]`
on an insertion-ordered dict, embedded as an association list with
distinct keys: add in place when the key is present, else append the
new key at the end. -/
def updateCat : List (String × PyNum) → String → PyNum → List (String × PyNum)
  | [], k, a => [(k, (PyNum.finite 0).add a)]
  | (k', v) :: rest, k, a =>
    if k' = k then (k', v.add a) :: rest
    else (k', v) :: updateCat rest k a

/-- Embedding of `FinancialTracker.get_category_stats`: fold the expense
sequence of `self.data` into an insertion-ordered mapping from category
to summed amount. -/
def get_category_stats (ls : LedgerState) : List (String × PyNum) :=
  ls.expenses.foldl (fun acc e => updateCat acc e.category e.amount) []

/-- Result record of `get_period_stats`. -/
structure PeriodStats where
  total_spent : PyNum
  expense_count : Nat
deriving DecidableEq

/-- The filter of `get_period_stats`:
`start_date <= expense["date"] <= end_date` with Python string
comparison. -/
def periodFilter (startD endD : String) (es : List Expense) : List Expense :=
  es.filter (fun e => strLe startD e.date && strLe e.date endD)

/-- Embedding of `FinancialTracker.get_period_stats`: validate both
dates with `strptime` (raising on failure), raise when
`start_date > end_date` (string comparison), else sum and count the
expenses whose date string lies in the inclusive range.  All raised
`ValueError`s surface as the single `invalidDateRange` failure.  The
method reads `self.data` and never writes, so it is embedded as a pure
function of the tracker. -/
def get_period_stats (startD endD : String) (tr : Tracker) : Except Err PeriodStats :=
  match strpYmd startD, strpYmd endD with
  | some _, some _ =>
    if strLt endD startD then .error .invalidDateRange
    else
      let period := periodFilter startD endD tr.data.expenses
      .ok ⟨period.foldl (fun acc e => acc.add e.amount) (.finite 0), period.length⟩
  | _, _ => .error .invalidDateRange

/-- A tracker freshly constructed over an absent data file: the default
state. -/
def freshTracker : Tracker :=
  { data := { budget := .finite 0, expenses := [] }, file := .absent }

/-- Spec-side: `s` is a strictly formatted `YYYY-MM-DD` string (four
digits, dash, two digits, dash, two digits) naming a real calendar date
of year at least 1. -/
def isStrictIsoDate (s : String) : Bool :=
  match s.data with
  | [y1, y2, y3, y4, '-', m1, m2, '-', d1, d2] =>
    y1.isDigit && y2.isDigit && y3.isDigit && y4.isDigit &&
    m1.isDigit && m2.isDigit && d1.isDigit && d2.isDigit &&
    (let y := 1000 * digitVal y1 + 100 * digitVal y2 + 10 * digitVal y3 + digitVal y4
     let m := 10 * digitVal m1 + digitVal m2
     let d := 10 * digitVal d1 + digitVal d2
     decide (1 ≤ y) && decide (1 ≤ m) && decide (m ≤ 12) &&
     decide (1 ≤ d) && decide (d ≤ daysInMonth y m))
  | _ => false

/-- Spec-side: record a key in first-seen order. -/
def insKey (ks : List String) (c : String) : List String :=
  if c ∈ ks then ks else ks ++ [c]

/-- Spec-side: the distinct elements of `l` in order of first
occurrence. -/
def firstSeen (l : List String) : List String :=
  l.foldl insKey []

/-- Sum of a list of Python numbers, starting from `0` and adding on
the left, as Python's `sum` does (with the program's rounded
addition). -/
def psum (l : List PyNum) : PyNum :=
  l.foldl PyNum.add (.finite 0)

/-- Spec-side idealization of `psum` with exact addition. -/
def psumExact (l : List PyNum) : PyNum :=
  l.foldl PyNum.addExact (.finite 0)

/-- Spec-side idealization of one `get_category_stats` step with exact
addition. -/
def updateCatExact : List (String × PyNum) → String → PyNum → List (String × PyNum)
  | [], k, a => [(k, (PyNum.finite 0).addExact a)]
  | (k', v) :: rest, k, a =>
    if k' = k then (k', v.addExact a) :: rest
    else (k', v) :: updateCatExact rest k a

/-- Spec-side idealization of `get_category_stats` with exact
addition. -/
def category_stats_exact (ls : LedgerState) : List (String × PyNum) :=
  ls.expenses.foldl (fun acc e => updateCatExact acc e.category e.amount) []

/-- Spec-side idealization of `get_total_spent` with exact addition. -/
def total_spent_exact (ls : LedgerState) : PyNum :=
  ls.expenses.foldl (fun acc e => acc.addExact e.amount) (.finite 0)

theorem foldl_addExact_eq (l : List PyNum) :
    ∀ init : PyNum, l.foldl PyNum.addExact init = init.addExact (psumExact l) := by
  induction l with
  | nil => intro init; simp [psumExact, PyNum.addExact_zero]
  | cons a l ih =>
    intro init
    simp only [List.foldl_cons, psumExact] at *
    rw [ih (init.addExact a), ih ((PyNum.finite 0).addExact a), PyNum.zero_addExact,
      PyNum.addExact_assoc]

theorem psumExact_cons (a : PyNum) (l : List PyNum) :
    psumExact (a :: l) = a.addExact (psumExact l) := by
  simp only [psumExact, List.foldl_cons]
  rw [foldl_addExact_eq, PyNum.zero_addExact]
  rfl

theorem get_total_spent_eq_psum (ls : LedgerState) :
    get_total_spent ls = psum (ls.expenses.map Expense.amount) := by
  simp only [get_total_spent, psum, List.foldl_map]

theorem updateCat_keys (acc : List (String × PyNum)) (k : String) (a : PyNum) :
    (updateCat acc k a).map Prod.fst =
      if k ∈ acc.map Prod.fst then acc.map Prod.fst
      else acc.map Prod.fst ++ [k] := by
  induction acc with
  | nil => simp [updateCat]
  | cons p rest ih =>
    obtain ⟨k', v⟩ := p
    by_cases h : k' = k
    · subst h
      simp [updateCat]
    · simp only [updateCat, if_neg h, List.map_cons, List.mem_cons, ih]
      have h' : ¬ (k = k') := fun hh => h hh.symm
      by_cases hm : k ∈ rest.map Prod.fst
      · simp [hm, h']
      · simp [hm, h']

theorem updateCatExact_sum (acc : List (String × PyNum)) (k : String) (a : PyNum) :
    psumExact ((updateCatExact acc k a).map Prod.snd) =
      (psumExact (acc.map Prod.snd)).addExact a := by
  induction acc with
  | nil => simp [updateCatExact, psumExact_cons, psumExact, PyNum.zero_addExact]
  | cons p rest ih =>
    obtain ⟨k', v⟩ := p
    by_cases h : k' = k
    · subst h
      simp only [updateCatExact, if_true, eq_self_iff_true, List.map_cons, psumExact_cons]
      rw [PyNum.addExact_assoc, PyNum.addExact_comm a, ← PyNum.addExact_assoc]
    · simp only [updateCatExact, if_neg h, List.map_cons, psumExact_cons, ih]
      rw [PyNum.addExact_assoc]

theorem category_fold_keys (es : List Expense) :
    ∀ acc : List (String × PyNum),
      ((es.foldl (fun acc e => updateCat acc e.category e.amount) acc).map Prod.fst)
        = (es.map Expense.category).foldl insKey (acc.map Prod.fst) := by
  induction es with
  | nil => intro acc; simp
  | cons e es ih =>
    intro acc
    simp only [List.foldl_cons, List.map_cons]
    rw [ih, updateCat_keys]
    rfl

theorem category_fold_sum_exact (es : List Expense) :
    ∀ acc : List (String × PyNum),
      psumExact ((es.foldl (fun acc e => updateCatExact acc e.category e.amount) acc).map Prod.snd)
        = (psumExact (acc.map Prod.snd)).addExact (psumExact (es.map Expense.amount)) := by
  induction es with
  | nil => intro acc; simp [psumExact, PyNum.addExact_zero]
  | cons e es ih =>
    intro acc
    simp only [List.foldl_cons, List.map_cons, psumExact_cons]
    rw [ih, updateCatExact_sum, PyNum.addExact_assoc]

theorem insKey_nodup {ks : List String} (h : ks.Nodup) (c : String) :
    (insKey ks c).Nodup := by
  unfold insKey
  by_cases hm : c ∈ ks
  · simpa [hm]
  · simp only [if_neg hm]
    refine List.Nodup.append h (List.nodup_singleton c) ?_
    intro x hx hc
    simp only [List.mem_singleton] at hc
    exact hm (hc ▸ hx)

theorem foldl_insKey_nodup (l : List String) :
    ∀ acc : List String, acc.Nodup → (l.foldl insKey acc).Nodup := by
  induction l with
  | nil => intro acc h; simpa
  | cons c l ih =>
    intro acc h
    exact ih (insKey acc c) (insKey_nodup h c)

theorem mem_foldl_insKey (x : String) (l : List String) :
    ∀ acc : List String, x ∈ l.foldl insKey acc ↔ x ∈ acc ∨ x ∈ l := by
  induction l with
  | nil => intro acc; simp
  | cons c l ih =>
    intro acc
    rw [List.foldl_cons, ih]
    unfold insKey
    by_cases hm : c ∈ acc
    · by_cases hxc : x = c
      · subst hxc
        simp [hm]
      · simp [hm, hxc]
    · simp only [if_neg hm, List.mem_append, List.mem_singleton, List.mem_cons]
      tauto

theorem decodeExpense_encodeExpense (e : Expense) :
    decodeExpense (encodeExpense e) = some e := rfl

theorem decodeExpenses_map_encode (es : List Expense) :
    decodeExpenses (es.map encodeExpense) = some es := by
  induction es with
  | nil => rfl
  | cons e es ih => simp [decodeExpenses, decodeExpense_encodeExpense, ih]

/-- The states a tracker can be in after constructing over a
defaulting data file (absent, empty, or unparseable content) and then
running any sequence of `set_budget` / `add_expense` calls, successful
or failing. -/
inductive ReachableTracker : Tracker → Prop where
  | fresh : ReachableTracker freshTracker
  | fromEmpty :
      ReachableTracker { data := { budget := .finite 0, expenses := [] }, file := .empty }
  | fromInvalid :
      ReachableTracker { data := { budget := .finite 0, expenses := [] }, file := .invalid }
  | budgetStep (v : PyNum) (tr tr' : Tracker) (r : Except Err Bool) :
      ReachableTracker tr → set_budget v tr = (r, tr') → ReachableTracker tr'
  | expenseStep (a : PyNum) (c : String) (d : Option String) (today : String)
      (tr tr' : Tracker) (r : Except Err Bool) :
      ReachableTracker tr → add_expense a c d today tr = (r, tr') → ReachableTracker tr'

/-- C1 (amended): `set_budget v` fails with `InvalidBudget` if and only
if `v` compares less than zero under IEEE semantics (so `nan` and
`+inf`, though not finite, are accepted); on failure the tracker
(budget, expenses and file) is unchanged; on success the budget equals
`v`, the expenses are unchanged, the full new state is persisted to the
file, and the call returns `True`. -/
theorem spec_c1_setBudget (v : PyNum) (tr : Tracker) :
    (PyNum.lt v (.finite 0) = true →
      set_budget v tr = (.error .invalidBudget, tr))
    ∧ (PyNum.lt v (.finite 0) = false →
      set_budget v tr =
        (.ok true,
          { data := { budget := v, expenses := tr.data.expenses },
            file := save_data (encodeState { budget := v, expenses := tr.data.expenses }) })) := by
  constructor <;> intro h <;> simp [set_budget, h, saveTracker]

/-- C1 witness: `set_budget (-1)` fails with `InvalidBudget` and leaves
the fresh tracker unchanged. -/
theorem spec_c1_setBudget_witness :
    set_budget (.finite (-1)) freshTracker = (.error .invalidBudget, freshTracker) :=
  (spec_c1_setBudget (.finite (-1)) freshTracker).1 (by decide)

/-- C1 counterexample to the claim as stated: `float("inf")` is not a
valid finite number, yet `set_budget` accepts it (the code only checks
`budget_float < 0`, which is false for `inf` and `nan`), stores it and
reports success. -/
theorem spec_c1_counterexample :
    PyNum.isFiniteNum .inf = false
    ∧ (set_budget .inf freshTracker).1 = .ok true
    ∧ (set_budget .inf freshTracker).2.data.budget = .inf :=
  ⟨rfl, rfl, rfl⟩

/-- C2 (amended): the loaded document defaults to
`{budget: 0.0, expenses: []}` when the file is absent, empty, or its
content raises one of the caught read/parse errors; any successfully
parsed JSON value is adopted as the state as is, with no validation of
its shape; and content that is not decodable as UTF-8 makes
construction fail with the uncaught `UnicodeDecodeError` instead of
defaulting. -/
theorem spec_c2_loadData (doc : JsonVal) :
    load_data .absent = .ok defaultData
    ∧ load_data .empty = .ok defaultData
    ∧ load_data .invalid = .ok defaultData
    ∧ load_data (.valid doc) = .ok doc
    ∧ load_data .undecodable = .error .unicodeDecodeError :=
  ⟨rfl, rfl, rfl, rfl, rfl⟩

/-- C2 counterexample to the claim as stated: (a) the JSON document
`[1]` parses but does not have the expected shape
`{budget: number, expenses: [...]}` (the spec-side reader
`decodeState` rejects it), yet `_load_data` adopts it instead of
substituting the default state; (b) construction is not failure-free:
non-UTF-8 content raises an uncaught `UnicodeDecodeError`. -/
theorem spec_c2_counterexample :
    decodeState (JsonVal.arr [JsonVal.num (.finite 1)]) = none
    ∧ load_data (.valid (JsonVal.arr [JsonVal.num (.finite 1)])) ≠ .ok defaultData
    ∧ load_data .undecodable = .error .unicodeDecodeError :=
  ⟨rfl, fun h => (by simpa [defaultData] using Except.ok.inj h), rfl⟩

/-- C4 (amended): in every tracker state reachable from the default
state (construction over an absent, empty or unparseable file) through
any sequence of `set_budget` / `add_expense` calls, the budget never
compares negative.  (`budget ≥ 0` in the IEEE sense can still fail on
such states only because `set_budget` accepts `nan`; construction from
a parseable file performs no validation at all, see the
counterexample.) -/
theorem spec_c4_budget_invariant (tr : Tracker) (h : ReachableTracker tr) :
    PyNum.lt tr.data.budget (.finite 0) = false := by
  induction h with
  | fresh => decide
  | fromEmpty => decide
  | fromInvalid => decide
  | budgetStep v tr tr' r hr heq ih =>
    by_cases hv : PyNum.lt v (.finite 0) = true
    · simp only [set_budget, hv, if_true, Prod.mk.injEq] at heq
      rw [← heq.2]
      exact ih
    · rw [Bool.not_eq_true] at hv
      simp only [set_budget, hv, Bool.false_eq_true, if_false, Prod.mk.injEq,
        saveTracker] at heq
      rw [← heq.2]
      exact hv
  | expenseStep a c d today tr tr' r hr heq ih =>
    by_cases h1 : PyNum.le a (.finite 0) = true
    · simp only [add_expense, h1, if_true, Prod.mk.injEq] at heq
      rw [← heq.2]
      exact ih
    · rw [Bool.not_eq_true] at h1
      by_cases h2 : pyStrip c = ""
      · simp only [add_expense, h1, Bool.false_eq_true, if_false, h2, if_true,
          Prod.mk.injEq] at heq
        rw [← heq.2]
        exact ih
      · cases d with
        | none =>
          simp only [add_expense, h1, Bool.false_eq_true, if_false, h2,
            if_neg h2, saveTracker, Prod.mk.injEq] at heq
          rw [← heq.2]
          exact ih
        | some ds =>
          cases hd : strpYmd ds with
          | none =>
            simp only [add_expense, h1, Bool.false_eq_true, if_false, h2,
              if_neg h2, hd, Prod.mk.injEq] at heq
            rw [← heq.2]
            exact ih
          | some y =>
            simp only [add_expense, h1, Bool.false_eq_true, if_false, h2,
              if_neg h2, hd, saveTracker, Prod.mk.injEq] at heq
            rw [← heq.2]
            exact ih

/-- C4 witness: the invariant applied to the freshly constructed
tracker. -/
theorem spec_c4_budget_invariant_witness :
    PyNum.lt freshTracker.data.budget (.finite 0) = false :=
  spec_c4_budget_invariant freshTracker ReachableTracker.fresh

/-- C4 counterexample to the claim as stated: constructing over a file
whose content parses as `{"budget": -5, "expenses": []}` yields a
reachable state whose budget is negative, because `_load_data` adopts
any parseable document without validation. -/
theorem spec_c4_counterexample :
    load_data (.valid (encodeState { budget := .finite (-5), expenses := [] }))
      = .ok (encodeState { budget := .finite (-5), expenses := [] })
    ∧ decodeState (encodeState { budget := .finite (-5), expenses := [] })
      = some { budget := .finite (-5), expenses := [] }
    ∧ PyNum.lt (.finite (-5)) (.finite 0) = true :=
  ⟨rfl, rfl, by decide⟩

/-- Evaluation helper: the finite-finite case of float addition is the
rounding of the exact sum. -/
theorem PyNum.add_finite_eval (a b s : ℚ) (hs : a + b = s) (v : PyNum)
    (hv : roundB64 s = v) : (PyNum.finite a).add (.finite b) = v := by
  show roundB64 (a + b) = v
  rw [hs, hv]

/-- Evaluation helper: rounding a positive natural number, with the
grid point computed by `roundPosB64`. -/
theorem roundB64_natCast (a n : ℕ) (g : ℤ) (ha : 0 < a)
    (hr : roundPosB64 a 1 = some (n, g)) (v : ℚ) (hv : gridVal n g = v) :
    roundB64 ((a : ℚ)) = .finite v := by
  have hx : (0 : ℚ) < (a : ℚ) := by exact_mod_cast ha
  rw [roundB64, if_neg hx.ne', if_pos hx, Rat.num_natCast, Rat.den_natCast,
    Int.toNat_natCast, hr]
  show PyNum.finite (gridVal n g) = _
  rw [hv]

theorem add_1e16_eval :
    (PyNum.finite 0).add (.finite 10000000000000000) = .finite 10000000000000000 := by
  refine PyNum.add_finite_eval _ _ ((10000000000000000 : ℕ) : ℚ) (by norm_num) _ ?_
  refine roundB64_natCast _ 5000000000000000 1 (by norm_num) (by decide) _ ?_
  simp [gridVal, qpow2] <;> norm_num

theorem add_1e16_1_eval :
    (PyNum.finite 10000000000000000).add (.finite 1) = .finite 10000000000000000 := by
  refine PyNum.add_finite_eval _ _ ((10000000000000001 : ℕ) : ℚ) (by norm_num) _ ?_
  refine roundB64_natCast _ 5000000000000000 1 (by norm_num) (by decide) _ ?_
  simp [gridVal, qpow2] <;> norm_num

theorem add_0_1_eval : (PyNum.finite 0).add (.finite 1) = .finite 1 := by
  refine PyNum.add_finite_eval _ _ ((1 : ℕ) : ℚ) (by norm_num) _ ?_
  refine roundB64_natCast _ 4503599627370496 (-52) (by norm_num) (by decide) _ ?_
  simp [gridVal, qpow2] <;> norm_num

theorem add_1_1_eval : (PyNum.finite 1).add (.finite 1) = .finite 2 := by
  refine PyNum.add_finite_eval _ _ ((2 : ℕ) : ℚ) (by norm_num) _ ?_
  refine roundB64_natCast _ 4503599627370496 (-51) (by norm_num) (by decide) _ ?_
  simp [gridVal, qpow2] <;> norm_num

theorem add_1e16_2_eval :
    (PyNum.finite 10000000000000000).add (.finite 2) = .finite 10000000000000002 := by
  refine PyNum.add_finite_eval _ _ ((10000000000000002 : ℕ) : ℚ) (by norm_num) _ ?_
  refine roundB64_natCast _ 5000000000000001 1 (by norm_num) (by decide) _ ?_
  simp [gridVal, qpow2] <;> norm_num

/-- The expense sequence exhibiting rounding: `1e16` in one category,
twice `1.0` in another (all three amounts are exactly representable
binary64 values). -/
def c7Expenses : List Expense :=
  [⟨.finite 10000000000000000, "A", "2024-01-15"⟩,
   ⟨.finite 1, "B", "2024-01-15"⟩,
   ⟨.finite 1, "B", "2024-01-15"⟩]

/-- C7 (amended): with the additions carried out exactly (the spec-side
idealized reading `addExact`), the per-category sums total exactly the
overall total, for every expense sequence; under the program's IEEE-754
binary64 additions the two sides sum the same amounts in different
association orders and can differ by rounding (see the
counterexample). -/
theorem spec_c7_categoryStats_sum (ls : LedgerState) :
    psumExact ((category_stats_exact ls).map Prod.snd) = total_spent_exact ls := by
  have ht : total_spent_exact ls = psumExact (ls.expenses.map Expense.amount) := by
    simp only [total_spent_exact, psumExact, List.foldl_map]
  rw [ht]
  unfold category_stats_exact
  rw [category_fold_sum_exact]
  simp [psumExact, PyNum.zero_addExact]

/-- C7 counterexample to the claim as stated: with the program's
binary64 additions, the expenses `1e16` (category A), `1.0`, `1.0`
(category B) give `get_total_spent = 1e16` (each `+ 1.0` rounds back
down, ties-to-even), while `get_category_stats` is
`{A: 1e16, B: 2.0}` whose values sum to `1.0000000000000002e16`. -/
theorem spec_c7_counterexample :
    psum ((get_category_stats { budget := .finite 0, expenses := c7Expenses }).map Prod.snd)
      ≠ get_total_spent { budget := .finite 0, expenses := c7Expenses } := by
  have hstats :
      get_category_stats { budget := .finite 0, expenses := c7Expenses }
        = [("A", .finite 10000000000000000), ("B", .finite 2)] := by
    simp +decide only [get_category_stats, c7Expenses, List.foldl_cons,
      List.foldl_nil, updateCat]
    rw [add_1e16_eval, add_0_1_eval, add_1_1_eval]
    simp
  have htotal :
      get_total_spent { budget := .finite 0, expenses := c7Expenses }
        = .finite 10000000000000000 := by
    simp only [get_total_spent, c7Expenses, List.foldl_cons, List.foldl_nil]
    rw [add_1e16_eval, add_1e16_1_eval, add_1e16_1_eval]
  rw [hstats, htotal]
  simp only [List.map_cons, List.map_nil, psum, List.foldl_cons, List.foldl_nil]
  rw [add_1e16_eval, add_1e16_2_eval]
  intro hcon
  exact absurd (PyNum.finite.inj hcon) (by norm_num)

/-- C8 (confirmed): persisting a well-shaped state and reconstructing
from the same file reproduces the identical document, and the document
determines the state: same budget, same expense records in the same
order (serialization modelled at the JSON-value level). -/
theorem spec_c8_roundtrip (s : LedgerState) :
    load_data (save_data (encodeState s)) = .ok (encodeState s)
    ∧ decodeState (encodeState s) = some s := by
  refine ⟨rfl, ?_⟩
  simp [decodeState, encodeState, lookupField, decodeExpenses_map_encode]

/-- C3 (amended): `add_expense` fails with `InvalidExpense` if and only
if the amount compares `≤ 0` under IEEE semantics (so `nan` and `+inf`,
though not finite, are accepted), or the category is empty after
stripping whitespace, or a provided date string is rejected by the
`strptime` date parse (which accepts unpadded month/day but checks real
calendar validity); on every such failure the tracker is unchanged. -/
theorem spec_c3_addExpense_validation (a : PyNum) (c : String)
    (date : Option String) (today : String) (tr : Tracker) :
    ((add_expense a c date today tr).1 = .error .invalidExpense ↔
      (PyNum.le a (.finite 0) = true ∨ pyStrip c = ""
        ∨ ∃ d, date = some d ∧ strpYmd d = none))
    ∧ ((add_expense a c date today tr).1 = .error .invalidExpense →
        (add_expense a c date today tr).2 = tr) := by
  by_cases h1 : PyNum.le a (.finite 0) = true
  · simp [add_expense, h1]
  · rw [Bool.not_eq_true] at h1
    by_cases h2 : pyStrip c = ""
    · simp [add_expense, h1, h2]
    · cases date with
      | none => simp [add_expense, h1, h2]
      | some d =>
        cases hd : strpYmd d with
        | none => simp [add_expense, h1, h2, hd]
        | some y => simp [add_expense, h1, h2, hd]

/-- C3 witness: a non-positive amount is rejected and the state is
untouched. -/
theorem spec_c3_addExpense_validation_witness :
    (add_expense (.finite (-3)) "Food" none "2024-01-01" freshTracker).2 = freshTracker :=
  (spec_c3_addExpense_validation (.finite (-3)) "Food" none "2024-01-01" freshTracker).2
    rfl

/-- C3 counterexample to the claim as stated: `inf` and `nan` are not
valid finite numbers, yet `add_expense` accepts them, because the code
only checks `amount_float <= 0`, which is false for both. -/
theorem spec_c3_counterexample :
    PyNum.isFiniteNum .inf = false
    ∧ (add_expense .inf "Food" (some "2024-01-15") "2024-01-01" freshTracker).1 = .ok true
    ∧ (add_expense .nan "Food" (some "2024-01-15") "2024-01-01" freshTracker).1 = .ok true :=
  ⟨rfl, rfl, rfl⟩

/-- C5 (amended): `get_period_stats` fails with `InvalidDateRange`
exactly when either argument is rejected by the `strptime` date parse
(which also accepts unpadded month/day strings) or the start string is
lexicographically greater than the end string (the code compares raw
strings, which agrees with chronology only for zero-padded dates);
otherwise it returns the sum and count of the expenses whose date
string lies lexicographically in the inclusive range, `{0, 0}` when
none match.  The operation is embedded as a pure function of the
tracker: it leaves the state unchanged. -/
theorem spec_c5_periodStats (startD endD : String) (tr : Tracker) :
    (get_period_stats startD endD tr = .error .invalidDateRange ↔
      (strpYmd startD = none ∨ strpYmd endD = none ∨ strLt endD startD = true))
    ∧ (∀ st, get_period_stats startD endD tr = .ok st →
        st = ⟨psum ((periodFilter startD endD tr.data.expenses).map Expense.amount),
              (periodFilter startD endD tr.data.expenses).length⟩) := by
  cases hs : strpYmd startD with
  | none => simp [get_period_stats, hs]
  | some ys =>
    cases he : strpYmd endD with
    | none => simp [get_period_stats, hs, he]
    | some ye =>
      by_cases hlt : strLt endD startD = true
      · simp [get_period_stats, hs, he, hlt]
      · rw [Bool.not_eq_true] at hlt
        simp only [get_period_stats, hs, he, hlt, Bool.false_eq_true, if_false,
          psum, List.foldl_map]
        constructor
        · simp
        · intro st hst
          exact (Except.ok.inj hst).symm

/-- C5 witness: the spec's own example, `periodStats("2024-02-01",
"2024-01-01")`, fails with `InvalidDateRange`. -/
theorem spec_c5_periodStats_witness :
    get_period_stats "2024-02-01" "2024-01-01" freshTracker = .error .invalidDateRange :=
  (spec_c5_periodStats "2024-02-01" "2024-01-01" freshTracker).1.mpr
    (Or.inr (Or.inr (by decide)))

/-- C5 counterexample to the claim as stated: `"2024-1-5"` is not a
valid `YYYY-MM-DD` string (month and day are not zero-padded), yet the
code's `strptime` parse accepts it and `get_period_stats` succeeds
instead of failing with `InvalidDateRange`. -/
theorem spec_c5_counterexample :
    isStrictIsoDate "2024-1-5" = false
    ∧ strpYmd "2024-1-5" = some ⟨2024, 1, 5⟩
    ∧ get_period_stats "2024-1-5" "2024-12-31" freshTracker = .ok ⟨.finite 0, 0⟩ :=
  ⟨rfl, by decide, rfl⟩

/-- C6 (confirmed): a successful `add_expense` with an explicit date
appends exactly one record `{amount, stripped category, date}` at the
end of the expense sequence, leaving the earlier entries unchanged, so
the new total equals the old total plus the amount; repeating the same
call appends a second, separate copy of the record. -/
theorem spec_c6_addExpense_append (a : PyNum) (c d today : String) (tr tr' : Tracker)
    (h : add_expense a c (some d) today tr = (.ok true, tr')) :
    tr'.data.expenses = tr.data.expenses ++ [⟨a, pyStrip c, d⟩]
    ∧ get_total_spent tr'.data = (get_total_spent tr.data).add a
    ∧ ∃ tr'', add_expense a c (some d) today tr' = (.ok true, tr'')
        ∧ tr''.data.expenses
            = tr.data.expenses ++ [⟨a, pyStrip c, d⟩, ⟨a, pyStrip c, d⟩] := by
  by_cases h1 : PyNum.le a (.finite 0) = true
  · simp [add_expense, h1] at h
  · rw [Bool.not_eq_true] at h1
    by_cases h2 : pyStrip c = ""
    · simp [add_expense, h1, h2] at h
    · cases hd : strpYmd d with
      | none => simp [add_expense, h1, h2, hd] at h
      | some y =>
        simp only [add_expense, h1, Bool.false_eq_true, if_false, h2,
          if_neg h2, hd, saveTracker, Prod.mk.injEq, true_and] at h
        refine ⟨?_, ?_, ?_⟩
        · rw [← h]
        · rw [← h]
          simp [get_total_spent, List.foldl_append]
        · refine ⟨saveTracker { tr' with data := { tr'.data with
            expenses := tr'.data.expenses ++ [⟨a, pyStrip c, d⟩] } }, ?_, ?_⟩
          · simp [add_expense, h1, h2, hd, saveTracker]
          · rw [← h]
            simp [saveTracker]

/-- C6 witness: a concrete successful call on the fresh tracker. -/
theorem spec_c6_addExpense_append_witness :
    (add_expense (.finite 5) "Food" (some "2024-01-15") "2024-01-01" freshTracker).2.data.expenses
      = [⟨.finite 5, "Food", "2024-01-15"⟩] :=
  (spec_c6_addExpense_append (.finite 5) "Food" "2024-01-15" "2024-01-01"
    freshTracker _ rfl).1

/-- C9 (confirmed): `validate_amount` is total (it never raises); it
returns `(True, v)` exactly when the string converts to a number `v`
with `v >= 0` (so `"inf"` is accepted and `"nan"` is not, since every
comparison with `nan` is false), and `(False, 0)` in every other case;
`validate_amount("0")` returns `(True, 0)` while `add_expense` with
amount `0` fails with `InvalidExpense` for every category, date and
state — the two validation paths disagree at zero. -/
theorem spec_c9_validateAmount (s : String) :
    (∀ v, validate_amount s = (true, v) ↔
      (pyFloatOfString s = some v ∧ PyNum.le (.finite 0) v = true))
    ∧ ((validate_amount s).1 = false → validate_amount s = (false, .finite 0))
    ∧ validate_amount "0" = (true, .finite 0)
    ∧ (∀ (c : String) (date : Option String) (today : String) (tr : Tracker),
        add_expense (.finite 0) c date today tr = (.error .invalidExpense, tr)) := by
  refine ⟨?_, ?_, by decide, ?_⟩
  · intro v
    cases hp : pyFloatOfString s with
    | none => simp [validate_amount, hp]
    | some w =>
      by_cases hw : PyNum.le (.finite 0) w = true
      · simp only [validate_amount, hp, hw, if_true, Prod.mk.injEq,
          Option.some.injEq, true_and]
        constructor
        · rintro rfl
          exact ⟨rfl, hw⟩
        · rintro ⟨rfl, -⟩
          rfl
      · rw [Bool.not_eq_true] at hw
        simp only [validate_amount, hp, hw, Bool.false_eq_true, if_false,
          Prod.mk.injEq, Option.some.injEq]
        constructor
        · rintro ⟨h, -⟩
          exact absurd h (by simp)
        · rintro ⟨rfl, hc⟩
          rw [hw] at hc
          exact absurd hc (by simp)
  · cases hp : pyFloatOfString s with
    | none => intro; simp [validate_amount, hp]
    | some w =>
      by_cases hw : PyNum.le (.finite 0) w = true
      · simp [validate_amount, hp, hw]
      · rw [Bool.not_eq_true] at hw
        intro
        simp [validate_amount, hp, hw]
  · intro c date today tr
    have hz : PyNum.le (.finite 0) (.finite 0) = true := by decide
    simp [add_expense, hz]

/-- C9 witness: an unparseable string yields `(False, 0)`. -/
theorem spec_c9_validateAmount_witness :
    validate_amount "abc" = (false, .finite 0) :=
  (spec_c9_validateAmount "abc").2.1 rfl

/-- C10 (confirmed): `get_category_stats` is a function of the expense
sequence (the embedding is deterministic by construction); its entries
carry the distinct categories in first-seen order, exactly one entry
per category occurring in the sequence. -/
theorem spec_c10_categoryStats_order (ls : LedgerState) :
    (get_category_stats ls).map Prod.fst = firstSeen (ls.expenses.map Expense.category)
    ∧ ((get_category_stats ls).map Prod.fst).Nodup
    ∧ ∀ k, (k ∈ (get_category_stats ls).map Prod.fst
        ↔ k ∈ ls.expenses.map Expense.category) := by
  have h1 : (get_category_stats ls).map Prod.fst
      = (ls.expenses.map Expense.category).foldl insKey [] := by
    simpa [get_category_stats] using category_fold_keys ls.expenses []
  refine ⟨h1, ?_, ?_⟩
  · rw [h1]
    exact foldl_insKey_nodup _ [] List.nodup_nil
  · intro k
    rw [h1, mem_foldl_insKey]
    simp

/-- C10 witness: the keys on a fresh (empty) ledger. -/
theorem spec_c10_categoryStats_order_witness :
    (get_category_stats freshTracker.data).map Prod.fst
      = firstSeen (freshTracker.data.expenses.map Expense.category) :=
  (spec_c10_categoryStats_order freshTracker.data).1

end FinTrack








